import Mathlib

/-
Verification of the money-transfer core of simple-bank
(db/sqlc/store.go: validateTransferParams, updateAccountBalances,
execTx, TransferTx).

Shallow embedding notes.
* The sqlc-generated Querier (CreateTransfer, CreateEntry,
  GetAccountForUpdate, AddAccountBalance) is an external collaborator of
  the core ("Ledger Accessor" in the design document); its operations are
  modelled from the interface contract in the design document over an explicit
  database state, with fault injection (an `Option String` per call site)
  so that the error paths of the core are expressible.
* Balances and amounts are Go int64 / Postgres bigint.  The only
  arithmetic the core performs in Go is negating a validated positive
  amount (never overflowing); the balance additions happen in Postgres
  bigint, which raises an error rather than wrapping on overflow, so
  unbounded `Int` is the faithful model of every value the code can
  actually produce.
* The transaction is modelled by saving the database component of the
  state at `begin` and restoring it on rollback or failed commit.  Ghost
  components (`locks`: the order in which row locks were acquired,
  `events`: the order in which rows were created) survive rollback, since
  they record what the run did, not what persisted.
-/

namespace SimpleBank

/-- Modelled from the spec: the Account record of the Ledger Accessor
(section 3 data model) — identifier, balance in minor currency units,
currency code.  The generated Go model (db/sqlc/models.go) is not part of
the sources under verification. -/
structure Account where
  id : Int
  balance : Int
  currency : String
deriving Repr, DecidableEq

/-- Modelled from the spec: the Entry record — identifier, owning account
identifier, signed amount. -/
structure Entry where
  id : Int
  accountID : Int
  amount : Int
deriving Repr, DecidableEq

/-- Modelled from the spec: the Transfer record — identifier, source and
destination account identifiers, amount. -/
structure Transfer where
  id : Int
  fromAccountID : Int
  toAccountID : Int
  amount : Int
deriving Repr, DecidableEq

/-- TransferTxParams from store.go: the transfer request. -/
structure TransferTxParams where
  FromAccountID : Int
  ToAccountID : Int
  Amount : Int
deriving Repr, DecidableEq

/-- The errors the core can return.  In Go every error is an `error`
value built with fmt.Errorf; the constructors keep the data the
corresponding format string carries.
* sameAccount: "cannot transfer to the same account"
* nonPositiveAmount: "amount must be positive"
* insufficientBalance: "insufficient balance: account %d has %d, trying
  to transfer %d"
* accessor: an error produced by the Ledger Accessor or the transaction
  boundary (begin/commit/rollback), carried unchanged
* txAndRb: "tx err: %v, rb err: %v" — the combined error built when
  rollback itself fails after an original error. -/
inductive TxError where
  | sameAccount
  | nonPositiveAmount
  | insufficientBalance (accountID balance amount : Int)
  | accessor (msg : String)
  | txAndRb (txErr : TxError) (rbMsg : String)
deriving Repr, DecidableEq

/-- TransferTxResult from store.go.  In Go this is a struct of zero
values that the transaction closure fills in field by field. -/
structure TransferTxResult where
  Transfer : Transfer
  FromAccount : Account
  ToAccount : Account
  FromEntry : Entry
  ToEntry : Entry
deriving Repr, DecidableEq

/-- The Go zero value of TransferTxResult (`var result TransferTxResult`). -/
def TransferTxResult.empty : TransferTxResult :=
  ⟨⟨0, 0, 0, 0⟩, ⟨0, 0, ""⟩, ⟨0, 0, ""⟩, ⟨0, 0, 0⟩, ⟨0, 0, 0⟩⟩

/-- The persisted database state: account rows, entry rows, transfer rows,
and the id sequences the store assigns to new entry/transfer rows. -/
structure DB where
  accounts : List Account
  entries : List Entry
  transfers : List Transfer
  nextEntryID : Int
  nextTransferID : Int
deriving Repr, DecidableEq

/-- Ghost trace of row creations, recording their order. -/
inductive Ev where
  | transferCreated (t : Transfer)
  | entryCreated (e : Entry)
deriving Repr, DecidableEq

/-- Execution state: the database plus ghost traces — the account ids in
the order their row locks were acquired, and the row-creation events in
order. -/
structure St where
  db : DB
  locks : List Int
  events : List Ev
deriving Repr, DecidableEq

/-- Fault injection for the external collaborators: `some msg` makes the
corresponding call site fail with that accessor error, `none` lets it
proceed.  One field per call site of TransferTx. -/
structure Faults where
  beginErr : Option String
  createTransferErr : Option String
  createEntryFromErr : Option String
  createEntryToErr : Option String
  lockFirstErr : Option String
  lockSecondErr : Option String
  addFromErr : Option String
  addToErr : Option String
  commitErr : Option String
  rollbackErr : Option String
deriving Repr, DecidableEq

/-- A run in which no external collaborator fails. -/
def noFaults : Faults :=
  ⟨none, none, none, none, none, none, none, none, none, none⟩

/-- Row lookup by account id: the first account row with the given id. -/
def findAccount : List Account → Int → Option Account
  | [], _ => none
  | a :: rest, i => if a.id = i then some a else findAccount rest i

/-- The effect of `UPDATE accounts SET balance = balance + δ WHERE id = i`
on the account rows. -/
def applyDelta (l : List Account) (i δ : Int) : List Account :=
  l.map fun a => if a.id = i then { a with balance := a.balance + δ } else a

/-- Modelled from the spec: `GetAccountForUpdate(account-id) -> Account`
of the Ledger Accessor — a row-locking read that blocks until the lock is
acquired and fails if the account is absent.  The generated query
(db/sqlc/account.sql.go) is not part of the sources under verification.
Acquiring the lock is recorded in the ghost `locks` trace. -/
def GetAccountForUpdate (ferr : Option String) (i : Int) (st : St) :
    Except TxError Account × St :=
  match ferr with
  | some m => (.error (.accessor m), st)
  | none =>
    match findAccount st.db.accounts i with
    | none => (.error (.accessor "account not found"), st)
    | some a => (.ok a, { st with locks := st.locks ++ [i] })

/-- Modelled from the spec: `AddAccountBalance(account-id, delta) ->
Account` of the Ledger Accessor — an atomic add-and-return balance-delta
operation.  The generated query is not part of the sources under
verification. -/
def AddAccountBalance (ferr : Option String) (i δ : Int) (st : St) :
    Except TxError Account × St :=
  match ferr with
  | some m => (.error (.accessor m), st)
  | none =>
    match findAccount st.db.accounts i with
    | none => (.error (.accessor "account not found"), st)
    | some a =>
      (.ok { a with balance := a.balance + δ },
       { st with db := { st.db with accounts := applyDelta st.db.accounts i δ } })

/-- Modelled from the spec: `CreateEntry(account-id, amount) -> Entry` of
the Ledger Accessor — persists one immutable Entry row and returns it.
The generated query is not part of the sources under verification. -/
def CreateEntry (ferr : Option String) (accountID amount : Int) (st : St) :
    Except TxError Entry × St :=
  match ferr with
  | some m => (.error (.accessor m), st)
  | none =>
    let e : Entry := ⟨st.db.nextEntryID, accountID, amount⟩
    (.ok e,
     { st with
         db := { st.db with
                   entries := st.db.entries ++ [e],
                   nextEntryID := st.db.nextEntryID + 1 },
         events := st.events ++ [.entryCreated e] })

/-- Modelled from the spec: `CreateTransfer(transfer-fields) -> Transfer`
of the Ledger Accessor — persists one immutable Transfer row and returns
it.  The generated query is not part of the sources under verification. -/
def CreateTransfer (ferr : Option String) (fromID toID amount : Int) (st : St) :
    Except TxError Transfer × St :=
  match ferr with
  | some m => (.error (.accessor m), st)
  | none =>
    let t : Transfer := ⟨st.db.nextTransferID, fromID, toID, amount⟩
    (.ok t,
     { st with
         db := { st.db with
                   transfers := st.db.transfers ++ [t],
                   nextTransferID := st.db.nextTransferID + 1 },
         events := st.events ++ [.transferCreated t] })

/-- validateTransferParams from store.go: same-account check first, then
the positivity check. -/
def validateTransferParams (arg : TransferTxParams) : Option TxError :=
  if arg.FromAccountID = arg.ToAccountID then some .sameAccount
  else if arg.Amount ≤ 0 then some .nonPositiveAmount
  else none

/-- updateAccountBalances from store.go: sort the two ids ascending, lock
both rows in that order, re-check the source balance (two branches keyed
on which locked id is the source), then apply both balance deltas. -/
def updateAccountBalances (f : Faults) (arg : TransferTxParams) (st : St) :
    Except TxError (Account × Account) × St :=
  let firstAccountID : Int :=
    if arg.FromAccountID > arg.ToAccountID then arg.ToAccountID else arg.FromAccountID
  let secondAccountID : Int :=
    if arg.FromAccountID > arg.ToAccountID then arg.FromAccountID else arg.ToAccountID
  match GetAccountForUpdate f.lockFirstErr firstAccountID st with
  | (.error e, st1) => (.error e, st1)
  | (.ok firstAccount, st1) =>
    match GetAccountForUpdate f.lockSecondErr secondAccountID st1 with
    | (.error e, st2) => (.error e, st2)
    | (.ok secondAccount, st2) =>
      if firstAccountID = arg.FromAccountID ∧ firstAccount.balance < arg.Amount then
        (.error (.insufficientBalance arg.FromAccountID firstAccount.balance arg.Amount), st2)
      else if secondAccountID = arg.FromAccountID ∧ secondAccount.balance < arg.Amount then
        (.error (.insufficientBalance arg.FromAccountID secondAccount.balance arg.Amount), st2)
      else
        match AddAccountBalance f.addFromErr arg.FromAccountID (-arg.Amount) st2 with
        | (.error e, st3) => (.error e, st3)
        | (.ok fromAccount, st3) =>
          match AddAccountBalance f.addToErr arg.ToAccountID arg.Amount st3 with
          | (.error e, st4) => (.error e, st4)
          | (.ok toAccount, st4) => (.ok (fromAccount, toAccount), st4)

/-- The transaction closure passed to execTx in TransferTx: create the
Transfer row, the debit Entry, the credit Entry, then update both
balances.  The Go closure mutates the captured `result` variable field by
field; fields assigned before a failure keep their values, which this
function models by returning the result accumulated so far alongside the
error. -/
def transferTxBody (f : Faults) (arg : TransferTxParams)
    (result : TransferTxResult) (st : St) :
    TransferTxResult × Except TxError Unit × St :=
  match CreateTransfer f.createTransferErr arg.FromAccountID arg.ToAccountID arg.Amount st with
  | (.error e, st1) => (result, .error e, st1)
  | (.ok tr, st1) =>
    let result := { result with Transfer := tr }
    match CreateEntry f.createEntryFromErr arg.FromAccountID (-arg.Amount) st1 with
    | (.error e, st2) => (result, .error e, st2)
    | (.ok fe, st2) =>
      let result := { result with FromEntry := fe }
      match CreateEntry f.createEntryToErr arg.ToAccountID arg.Amount st2 with
      | (.error e, st3) => (result, .error e, st3)
      | (.ok te, st3) =>
        let result := { result with ToEntry := te }
        match updateAccountBalances f arg st3 with
        | (.error e, st4) => (result, .error e, st4)
        | (.ok (fa, ta), st4) =>
          ({ result with FromAccount := fa, ToAccount := ta }, .ok (), st4)

/-- execTx from store.go: begin a transaction, run the closure, commit on
success and roll back on failure; when rollback itself fails the original
error and the rollback error are combined.  Rollback (and a failed
commit) restores the database component saved at begin; the ghost traces
record what the run did and are kept. -/
def execTx {α : Type} (f : Faults) (a0 : α) (st : St)
    (fn : α → St → α × Except TxError Unit × St) :
    α × Option TxError × St :=
  match f.beginErr with
  | some m => (a0, some (.accessor m), st)
  | none =>
    match fn a0 st with
    | (a, .error e, st1) =>
      match f.rollbackErr with
      | some m => (a, some (.txAndRb e m), { st1 with db := st.db })
      | none => (a, some e, { st1 with db := st.db })
    | (a, .ok _, st1) =>
      match f.commitErr with
      | some m => (a, some (.accessor m), { st1 with db := st.db })
      | none => (a, none, st1)

/-- TransferTx from store.go: validate, then run the transfer closure
inside a transaction.  Returns the (possibly partially filled) result,
the error if any, and the final state. -/
def TransferTx (f : Faults) (arg : TransferTxParams) (st : St) :
    TransferTxResult × Option TxError × St :=
  match validateTransferParams arg with
  | some e => (TransferTxResult.empty, some e, st)
  | none => execTx f TransferTxResult.empty st (transferTxBody f arg)

/-- The InvalidRequest error class of the design document: the two
validation failures. -/
def TxError.isInvalidRequest : TxError → Bool
  | .sameAccount => true
  | .nonPositiveAmount => true
  | _ => false

/-- The single-check variant of updateAccountBalances the design document
asks for (section 9 open question): after both locks, one balance check
keyed on the actual source account rather than on lock order.  Written
from the words of the spec, to be compared with updateAccountBalances. -/
def updateAccountBalancesSingleCheck (f : Faults) (arg : TransferTxParams) (st : St) :
    Except TxError (Account × Account) × St :=
  let firstAccountID : Int :=
    if arg.FromAccountID > arg.ToAccountID then arg.ToAccountID else arg.FromAccountID
  let secondAccountID : Int :=
    if arg.FromAccountID > arg.ToAccountID then arg.FromAccountID else arg.ToAccountID
  match GetAccountForUpdate f.lockFirstErr firstAccountID st with
  | (.error e, st1) => (.error e, st1)
  | (.ok firstAccount, st1) =>
    match GetAccountForUpdate f.lockSecondErr secondAccountID st1 with
    | (.error e, st2) => (.error e, st2)
    | (.ok secondAccount, st2) =>
      let sourceAccount :=
        if firstAccountID = arg.FromAccountID then firstAccount else secondAccount
      if sourceAccount.balance < arg.Amount then
        (.error (.insufficientBalance arg.FromAccountID sourceAccount.balance arg.Amount), st2)
      else
        match AddAccountBalance f.addFromErr arg.FromAccountID (-arg.Amount) st2 with
        | (.error e, st3) => (.error e, st3)
        | (.ok fromAccount, st3) =>
          match AddAccountBalance f.addToErr arg.ToAccountID arg.Amount st3 with
          | (.error e, st4) => (.error e, st4)
          | (.ok toAccount, st4) => (.ok (fromAccount, toAccount), st4)

end SimpleBank

namespace SimpleBank

/-- A concrete store used to instantiate the universally quantified
theorems: two USD accounts, account 1 holding 1000 and account 2 holding
500 (the worked example of the design document), id sequences at 1. -/
def st0 : St := ⟨⟨[⟨1, 1000, "USD"⟩, ⟨2, 500, "USD"⟩], [], [], 1, 1⟩, [], []⟩

theorem findAccount_applyDelta_self (l : List Account) (i δ : Int) (a : Account)
    (h : findAccount l i = some a) :
    findAccount (applyDelta l i δ) i = some { a with balance := a.balance + δ } := by
  induction l with
  | nil => simp [findAccount] at h
  | cons b rest ih =>
    simp only [findAccount] at h
    by_cases hb : b.id = i
    · rw [if_pos hb] at h
      cases h
      simp [applyDelta, findAccount, hb]
    · rw [if_neg hb] at h
      simp only [applyDelta, List.map_cons] at *
      rw [if_neg hb]
      simp only [findAccount]
      rw [if_neg hb]
      exact ih h

theorem findAccount_applyDelta_ne (l : List Account) (i j δ : Int) (hij : j ≠ i) :
    findAccount (applyDelta l i δ) j = findAccount l j := by
  induction l with
  | nil => rfl
  | cons b rest ih =>
    simp only [applyDelta, List.map_cons]
    by_cases hb : b.id = i
    · have hbj : b.id ≠ j := by
        rw [hb]
        exact fun hc => hij hc.symm
      rw [if_pos hb]
      simp only [findAccount]
      rw [if_neg hbj, if_neg hbj]
      exact ih
    · rw [if_neg hb]
      simp only [findAccount]
      by_cases hbj : b.id = j
      · rw [if_pos hbj, if_pos hbj]
      · rw [if_neg hbj, if_neg hbj]
        exact ih

theorem validate_eq_none (arg : TransferTxParams) :
    validateTransferParams arg = none ↔
      arg.FromAccountID ≠ arg.ToAccountID ∧ 0 < arg.Amount := by
  unfold validateTransferParams
  split_ifs with h1 h2 <;> simp_all

end SimpleBank

namespace SimpleBank

/-- Full characterization of a fault-free successful run of TransferTx:
both accounts exist, the ids differ, the amount is positive and covered
by the source balance.  Gives the exact result, the absence of an error,
and the exact final state. -/
theorem success_run (arg : TransferTxParams) (st : St) (src dst : Account)
    (hne : arg.FromAccountID ≠ arg.ToAccountID)
    (hpos : 0 < arg.Amount)
    (hsrc : findAccount st.db.accounts arg.FromAccountID = some src)
    (hdst : findAccount st.db.accounts arg.ToAccountID = some dst)
    (hbal : arg.Amount ≤ src.balance) :
    TransferTx noFaults arg st =
      ({ Transfer := ⟨st.db.nextTransferID, arg.FromAccountID, arg.ToAccountID, arg.Amount⟩,
         FromAccount := { src with balance := src.balance + -arg.Amount },
         ToAccount := { dst with balance := dst.balance + arg.Amount },
         FromEntry := ⟨st.db.nextEntryID, arg.FromAccountID, -arg.Amount⟩,
         ToEntry := ⟨st.db.nextEntryID + 1, arg.ToAccountID, arg.Amount⟩ },
       none,
       { db := { accounts := applyDelta (applyDelta st.db.accounts arg.FromAccountID (-arg.Amount))
                   arg.ToAccountID arg.Amount,
                 entries := st.db.entries ++ [⟨st.db.nextEntryID, arg.FromAccountID, -arg.Amount⟩,
                   ⟨st.db.nextEntryID + 1, arg.ToAccountID, arg.Amount⟩],
                 transfers := st.db.transfers ++
                   [⟨st.db.nextTransferID, arg.FromAccountID, arg.ToAccountID, arg.Amount⟩],
                 nextEntryID := st.db.nextEntryID + 2,
                 nextTransferID := st.db.nextTransferID + 1 },
         locks := st.locks ++ (if arg.FromAccountID > arg.ToAccountID
                    then [arg.ToAccountID, arg.FromAccountID]
                    else [arg.FromAccountID, arg.ToAccountID]),
         events := st.events ++
           [.transferCreated ⟨st.db.nextTransferID, arg.FromAccountID, arg.ToAccountID, arg.Amount⟩,
            .entryCreated ⟨st.db.nextEntryID, arg.FromAccountID, -arg.Amount⟩,
            .entryCreated ⟨st.db.nextEntryID + 1, arg.ToAccountID, arg.Amount⟩] }) := by
  have hv : validateTransferParams arg = none := (validate_eq_none arg).mpr ⟨hne, hpos⟩
  have hnb : ¬ (src.balance < arg.Amount) := by omega
  have hne' : arg.ToAccountID ≠ arg.FromAccountID := fun h => hne h.symm
  have hdst2 : findAccount (applyDelta st.db.accounts arg.FromAccountID (-arg.Amount))
      arg.ToAccountID = some dst :=
    (findAccount_applyDelta_ne _ _ _ _ hne').trans hdst
  have hc1 : ¬ (arg.ToAccountID = arg.FromAccountID ∧ dst.balance < arg.Amount) := by
    intro hc
    exact hne' hc.1
  by_cases hgt : arg.FromAccountID > arg.ToAccountID
  · simp only [TransferTx, hv, execTx, noFaults, transferTxBody, CreateTransfer, CreateEntry,
      updateAccountBalances, GetAccountForUpdate, AddAccountBalance, hgt, if_true, if_pos,
      hsrc, hdst, hdst2, hc1, hnb]
    simp [hsrc, hdst, hdst2, hc1, hnb, List.append_assoc]
    omega
  · simp only [TransferTx, hv, execTx, noFaults, transferTxBody, CreateTransfer, CreateEntry,
      updateAccountBalances, GetAccountForUpdate, AddAccountBalance, hgt, if_false,
      hsrc, hdst, hdst2, hc1, hnb]
    simp [hsrc, hdst, hdst2, hc1, hnb, List.append_assoc]
    omega

end SimpleBank

namespace SimpleBank

/-- Full characterization of a fault-free run that hits the post-lock
insufficient-balance check: the error names the source account id, its
locked balance and the requested amount, and the transaction is rolled
back (the database component of the final state is the initial one). -/
theorem insufficient_run (arg : TransferTxParams) (st : St) (src dst : Account)
    (hne : arg.FromAccountID ≠ arg.ToAccountID)
    (hpos : 0 < arg.Amount)
    (hsrc : findAccount st.db.accounts arg.FromAccountID = some src)
    (hdst : findAccount st.db.accounts arg.ToAccountID = some dst)
    (hlow : src.balance < arg.Amount) :
    (TransferTx noFaults arg st).2.1 =
      some (.insufficientBalance arg.FromAccountID src.balance arg.Amount) ∧
    ((TransferTx noFaults arg st).2.2).db = st.db := by
  have hv : validateTransferParams arg = none := (validate_eq_none arg).mpr ⟨hne, hpos⟩
  have hne' : arg.ToAccountID ≠ arg.FromAccountID := fun h => hne h.symm
  have hc1 : ¬ (arg.ToAccountID = arg.FromAccountID ∧ dst.balance < arg.Amount) := by
    intro hc
    exact hne' hc.1
  by_cases hgt : arg.FromAccountID > arg.ToAccountID
  · simp only [TransferTx, hv, execTx, noFaults, transferTxBody, CreateTransfer, CreateEntry,
      updateAccountBalances, GetAccountForUpdate, AddAccountBalance, hgt, if_true, if_pos,
      hsrc, hdst, hc1, hlow]
    simp [hsrc, hdst, hc1, hlow]
  · simp only [TransferTx, hv, execTx, noFaults, transferTxBody, CreateTransfer, CreateEntry,
      updateAccountBalances, GetAccountForUpdate, AddAccountBalance, hgt, if_false,
      hsrc, hdst, hc1, hlow]
    simp [hsrc, hdst, hc1, hlow]

end SimpleBank

namespace SimpleBank

theorem GetAccountForUpdate_ok (ferr : Option String) (i : Int) (st : St)
    (a : Account) (st1 : St) (h : GetAccountForUpdate ferr i st = (.ok a, st1)) :
    findAccount st.db.accounts i = some a ∧ st1.db = st.db := by
  unfold GetAccountForUpdate at h
  cases ferr with
  | some m => simp at h
  | none =>
    cases hf : findAccount st.db.accounts i with
    | none => rw [hf] at h; simp at h
    | some b =>
      rw [hf] at h
      dsimp only at h
      simp only [Prod.mk.injEq, Except.ok.injEq] at h
      obtain ⟨h1, h2⟩ := h
      subst h2
      subst h1
      exact ⟨rfl, rfl⟩

theorem AddAccountBalance_ok (ferr : Option String) (i δ : Int) (st : St)
    (a : Account) (st1 : St) (h : AddAccountBalance ferr i δ st = (.ok a, st1)) :
    st1.db.accounts = applyDelta st.db.accounts i δ := by
  unfold AddAccountBalance at h
  cases ferr with
  | some m => simp at h
  | none =>
    cases hf : findAccount st.db.accounts i with
    | none => rw [hf] at h; simp at h
    | some b =>
      rw [hf] at h
      dsimp only at h
      simp only [Prod.mk.injEq, Except.ok.injEq] at h
      rw [← h.2]

/-- An ok outcome of updateAccountBalances pins down what must have
happened: the source row was found, its locked balance covered the
amount, and the final account rows are the initial ones with the two
deltas applied (source first, then destination). -/
theorem uab_ok (f : Faults) (arg : TransferTxParams) (st : St)
    (fa ta : Account) (st' : St)
    (h : updateAccountBalances f arg st = (.ok (fa, ta), st')) :
    ∃ src, findAccount st.db.accounts arg.FromAccountID = some src ∧
      arg.Amount ≤ src.balance ∧
      st'.db.accounts =
        applyDelta (applyDelta st.db.accounts arg.FromAccountID (-arg.Amount))
          arg.ToAccountID arg.Amount := by
  by_cases hgt : arg.FromAccountID > arg.ToAccountID
  · simp only [updateAccountBalances, if_pos hgt] at h
    cases h1 : GetAccountForUpdate f.lockFirstErr arg.ToAccountID st with
    | mk r1 st1 =>
      rw [h1] at h
      cases r1 with
      | error e => simp at h
      | ok firstAccount =>
        dsimp only at h
        cases h2 : GetAccountForUpdate f.lockSecondErr arg.FromAccountID st1 with
        | mk r2 st2 =>
          rw [h2] at h
          cases r2 with
          | error e => simp at h
          | ok secondAccount =>
            dsimp only at h
            obtain ⟨hfa1, hdb1⟩ := GetAccountForUpdate_ok _ _ _ _ _ h1
            obtain ⟨hfa2, hdb2⟩ := GetAccountForUpdate_ok _ _ _ _ _ h2
            split at h
            · simp at h
            · split at h
              · simp at h
              · rename_i hs1 hs2
                have hbound : arg.Amount ≤ secondAccount.balance := by
                  rcases not_and_or.mp hs2 with hc | hc
                  · exact absurd trivial hc
                  · omega
                cases h3 : AddAccountBalance f.addFromErr arg.FromAccountID (-arg.Amount) st2 with
                | mk r3 st3 =>
                  rw [h3] at h
                  cases r3 with
                  | error e => simp at h
                  | ok fromAccount =>
                    dsimp only at h
                    cases h4 : AddAccountBalance f.addToErr arg.ToAccountID arg.Amount st3 with
                    | mk r4 st4 =>
                      rw [h4] at h
                      cases r4 with
                      | error e => simp at h
                      | ok toAccount =>
                        dsimp only at h
                        simp only [Prod.mk.injEq] at h
                        refine ⟨secondAccount, ?_, hbound, ?_⟩
                        · rw [hdb1] at hfa2
                          exact hfa2
                        · have e3 := AddAccountBalance_ok _ _ _ _ _ _ h3
                          have e4 := AddAccountBalance_ok _ _ _ _ _ _ h4
                          rw [← h.2, e4, e3, hdb2, hdb1]
  · simp only [updateAccountBalances, if_neg hgt] at h
    cases h1 : GetAccountForUpdate f.lockFirstErr arg.FromAccountID st with
    | mk r1 st1 =>
      rw [h1] at h
      cases r1 with
      | error e => simp at h
      | ok firstAccount =>
        dsimp only at h
        cases h2 : GetAccountForUpdate f.lockSecondErr arg.ToAccountID st1 with
        | mk r2 st2 =>
          rw [h2] at h
          cases r2 with
          | error e => simp at h
          | ok secondAccount =>
            dsimp only at h
            obtain ⟨hfa1, hdb1⟩ := GetAccountForUpdate_ok _ _ _ _ _ h1
            obtain ⟨hfa2, hdb2⟩ := GetAccountForUpdate_ok _ _ _ _ _ h2
            split at h
            · simp at h
            · split at h
              · simp at h
              · rename_i hs1 hs2
                have hbound : arg.Amount ≤ firstAccount.balance := by
                  rcases not_and_or.mp hs1 with hc | hc
                  · exact absurd trivial hc
                  · omega
                cases h3 : AddAccountBalance f.addFromErr arg.FromAccountID (-arg.Amount) st2 with
                | mk r3 st3 =>
                  rw [h3] at h
                  cases r3 with
                  | error e => simp at h
                  | ok fromAccount =>
                    dsimp only at h
                    cases h4 : AddAccountBalance f.addToErr arg.ToAccountID arg.Amount st3 with
                    | mk r4 st4 =>
                      rw [h4] at h
                      cases r4 with
                      | error e => simp at h
                      | ok toAccount =>
                        dsimp only at h
                        simp only [Prod.mk.injEq] at h
                        refine ⟨firstAccount, hfa1, hbound, ?_⟩
                        have e3 := AddAccountBalance_ok _ _ _ _ _ _ h3
                        have e4 := AddAccountBalance_ok _ _ _ _ _ _ h4
                        rw [← h.2, e4, e3, hdb2, hdb1]

end SimpleBank

namespace SimpleBank

theorem CreateTransfer_ok (ferr : Option String) (fromID toID amount : Int)
    (st : St) (t : Transfer) (st1 : St)
    (h : CreateTransfer ferr fromID toID amount st = (.ok t, st1)) :
    st1.db.accounts = st.db.accounts := by
  unfold CreateTransfer at h
  cases ferr with
  | some m => simp at h
  | none =>
    dsimp only at h
    simp only [Prod.mk.injEq] at h
    rw [← h.2]

theorem CreateEntry_ok (ferr : Option String) (accountID amount : Int)
    (st : St) (e : Entry) (st1 : St)
    (h : CreateEntry ferr accountID amount st = (.ok e, st1)) :
    st1.db.accounts = st.db.accounts := by
  unfold CreateEntry at h
  cases ferr with
  | some m => simp at h
  | none =>
    dsimp only at h
    simp only [Prod.mk.injEq] at h
    rw [← h.2]

/-- An ok outcome of the transaction closure pins down the source row,
its sufficient balance, and the final account rows. -/
theorem body_ok (f : Faults) (arg : TransferTxParams) (r0 r : TransferTxResult)
    (st : St) (u : Unit) (st' : St)
    (h : transferTxBody f arg r0 st = (r, .ok u, st')) :
    ∃ src, findAccount st.db.accounts arg.FromAccountID = some src ∧
      arg.Amount ≤ src.balance ∧
      st'.db.accounts =
        applyDelta (applyDelta st.db.accounts arg.FromAccountID (-arg.Amount))
          arg.ToAccountID arg.Amount := by
  unfold transferTxBody at h
  cases h1 : CreateTransfer f.createTransferErr arg.FromAccountID arg.ToAccountID arg.Amount st with
  | mk r1 st1 =>
    rw [h1] at h
    cases r1 with
    | error e => simp at h
    | ok tr =>
      dsimp only at h
      cases h2 : CreateEntry f.createEntryFromErr arg.FromAccountID (-arg.Amount) st1 with
      | mk r2 st2 =>
        rw [h2] at h
        cases r2 with
        | error e => simp at h
        | ok fe =>
          dsimp only at h
          cases h3 : CreateEntry f.createEntryToErr arg.ToAccountID arg.Amount st2 with
          | mk r3 st3 =>
            rw [h3] at h
            cases r3 with
            | error e => simp at h
            | ok te =>
              dsimp only at h
              cases h4 : updateAccountBalances f arg st3 with
              | mk r4 st4 =>
                rw [h4] at h
                cases r4 with
                | error e => simp at h
                | ok p =>
                  obtain ⟨fa, ta⟩ := p
                  dsimp only at h
                  simp only [Prod.mk.injEq] at h
                  obtain ⟨src, hsrc, hbound, hacc⟩ := uab_ok _ _ _ _ _ _ h4
                  have hc1 := CreateTransfer_ok _ _ _ _ _ _ _ h1
                  have hc2 := CreateEntry_ok _ _ _ _ _ _ h2
                  have hc3 := CreateEntry_ok _ _ _ _ _ _ h3
                  refine ⟨src, ?_, hbound, ?_⟩
                  · rw [hc3, hc2, hc1] at hsrc
                    exact hsrc
                  · rw [← h.2.2, hacc, hc3, hc2, hc1]

/-- Every run of TransferTx either leaves the database unchanged (any
validation failure or any rolled-back transaction) or is a successful
transfer: a positive amount between distinct accounts whose source row
covered the amount, with both deltas applied to the account rows. -/
theorem tx_db_cases (f : Faults) (arg : TransferTxParams) (st : St) :
    ((TransferTx f arg st).2.2).db = st.db ∨
    (arg.FromAccountID ≠ arg.ToAccountID ∧ 0 < arg.Amount ∧
     ∃ src, findAccount st.db.accounts arg.FromAccountID = some src ∧
       arg.Amount ≤ src.balance ∧
       ((TransferTx f arg st).2.2).db.accounts =
         applyDelta (applyDelta st.db.accounts arg.FromAccountID (-arg.Amount))
           arg.ToAccountID arg.Amount) := by
  unfold TransferTx
  cases hv : validateTransferParams arg with
  | some e => left; rfl
  | none =>
    obtain ⟨hne, hpos⟩ := (validate_eq_none arg).mp hv
    unfold execTx
    cases hb : f.beginErr with
    | some m => left; rfl
    | none =>
      cases hbody : transferTxBody f arg TransferTxResult.empty st with
      | mk r rest =>
        cases rest with
        | mk ex st1 =>
          cases ex with
          | error e =>
            dsimp only
            cases f.rollbackErr with
            | some m => left; rfl
            | none => left; rfl
          | ok u =>
            dsimp only
            cases f.commitErr with
            | some m => left; rfl
            | none =>
              right
              obtain ⟨src, hsrc, hbound, hacc⟩ := body_ok _ _ _ _ _ _ _ hbody
              exact ⟨hne, hpos, src, hsrc, hbound, hacc⟩

end SimpleBank

namespace SimpleBank

/-- Claim C1: for every request with distinct account ids, positive
amount, and source balance at least the amount, a fault-free TransferTx
succeeds: the source balance decreases by exactly the amount, the
destination balance increases by exactly the amount, the sum of both
balances is unchanged, and the FromAccount/ToAccount fields of the
returned TransferTxResult are exactly the post-update account rows as
read back from the final database state. -/
theorem claim_C1_transfer_balances (arg : TransferTxParams) (st : St) (src dst : Account)
    (hne : arg.FromAccountID ≠ arg.ToAccountID) (hpos : 0 < arg.Amount)
    (hsrc : findAccount st.db.accounts arg.FromAccountID = some src)
    (hdst : findAccount st.db.accounts arg.ToAccountID = some dst)
    (hbal : arg.Amount ≤ src.balance) :
    (TransferTx noFaults arg st).2.1 = none ∧
    (TransferTx noFaults arg st).1.FromAccount.balance = src.balance - arg.Amount ∧
    (TransferTx noFaults arg st).1.ToAccount.balance = dst.balance + arg.Amount ∧
    (TransferTx noFaults arg st).1.FromAccount.balance
      + (TransferTx noFaults arg st).1.ToAccount.balance
      = src.balance + dst.balance ∧
    findAccount ((TransferTx noFaults arg st).2.2).db.accounts arg.FromAccountID
      = some (TransferTx noFaults arg st).1.FromAccount ∧
    findAccount ((TransferTx noFaults arg st).2.2).db.accounts arg.ToAccountID
      = some (TransferTx noFaults arg st).1.ToAccount := by
  have hne' : arg.ToAccountID ≠ arg.FromAccountID := fun h => hne h.symm
  have hdst2 : findAccount (applyDelta st.db.accounts arg.FromAccountID (-arg.Amount))
      arg.ToAccountID = some dst :=
    (findAccount_applyDelta_ne _ _ _ _ hne').trans hdst
  rw [success_run arg st src dst hne hpos hsrc hdst hbal]
  refine ⟨rfl, ?_, rfl, ?_, ?_, ?_⟩
  · dsimp only
    omega
  · dsimp only
    omega
  · dsimp only
    rw [findAccount_applyDelta_ne _ _ _ _ hne]
    exact findAccount_applyDelta_self _ _ _ _ hsrc
  · dsimp only
    exact findAccount_applyDelta_self _ _ _ _ hdst2

theorem claim_C1_witness :
    (TransferTx noFaults ⟨1, 2, 200⟩ st0).2.1 = none ∧
    (TransferTx noFaults ⟨1, 2, 200⟩ st0).1.FromAccount.balance = 1000 - 200 ∧
    (TransferTx noFaults ⟨1, 2, 200⟩ st0).1.ToAccount.balance = 500 + 200 ∧
    (TransferTx noFaults ⟨1, 2, 200⟩ st0).1.FromAccount.balance
      + (TransferTx noFaults ⟨1, 2, 200⟩ st0).1.ToAccount.balance
      = 1000 + 500 ∧
    findAccount ((TransferTx noFaults ⟨1, 2, 200⟩ st0).2.2).db.accounts 1
      = some (TransferTx noFaults ⟨1, 2, 200⟩ st0).1.FromAccount ∧
    findAccount ((TransferTx noFaults ⟨1, 2, 200⟩ st0).2.2).db.accounts 2
      = some (TransferTx noFaults ⟨1, 2, 200⟩ st0).1.ToAccount :=
  claim_C1_transfer_balances ⟨1, 2, 200⟩ st0 ⟨1, 1000, "USD"⟩ ⟨2, 500, "USD"⟩
    (by decide) (by decide) rfl rfl (by decide)

/-- Claim C2: a fault-free TransferTx on a valid request whose source
account balance is below the amount at lock time fails with the
insufficient-balance error naming the source account id, its balance and
the requested amount; the transaction is rolled back, so the transfer
rows, entry rows and every account balance are unchanged. -/
theorem claim_C2_insufficient_rollback (arg : TransferTxParams) (st : St) (src dst : Account)
    (hne : arg.FromAccountID ≠ arg.ToAccountID) (hpos : 0 < arg.Amount)
    (hsrc : findAccount st.db.accounts arg.FromAccountID = some src)
    (hdst : findAccount st.db.accounts arg.ToAccountID = some dst)
    (hlow : src.balance < arg.Amount) :
    (TransferTx noFaults arg st).2.1 =
      some (.insufficientBalance arg.FromAccountID src.balance arg.Amount) ∧
    ((TransferTx noFaults arg st).2.2).db = st.db ∧
    ((TransferTx noFaults arg st).2.2).db.transfers = st.db.transfers ∧
    ((TransferTx noFaults arg st).2.2).db.entries = st.db.entries ∧
    findAccount ((TransferTx noFaults arg st).2.2).db.accounts arg.FromAccountID = some src ∧
    findAccount ((TransferTx noFaults arg st).2.2).db.accounts arg.ToAccountID = some dst := by
  obtain ⟨h1, h2⟩ := insufficient_run arg st src dst hne hpos hsrc hdst hlow
  refine ⟨h1, h2, by rw [h2], by rw [h2], by rw [h2]; exact hsrc, by rw [h2]; exact hdst⟩

theorem claim_C2_witness :
    (TransferTx noFaults ⟨1, 2, 2000⟩ st0).2.1 =
      some (.insufficientBalance 1 1000 2000) ∧
    ((TransferTx noFaults ⟨1, 2, 2000⟩ st0).2.2).db = st0.db ∧
    ((TransferTx noFaults ⟨1, 2, 2000⟩ st0).2.2).db.transfers = st0.db.transfers ∧
    ((TransferTx noFaults ⟨1, 2, 2000⟩ st0).2.2).db.entries = st0.db.entries ∧
    findAccount ((TransferTx noFaults ⟨1, 2, 2000⟩ st0).2.2).db.accounts 1
      = some ⟨1, 1000, "USD"⟩ ∧
    findAccount ((TransferTx noFaults ⟨1, 2, 2000⟩ st0).2.2).db.accounts 2
      = some ⟨2, 500, "USD"⟩ :=
  claim_C2_insufficient_rollback ⟨1, 2, 2000⟩ st0 ⟨1, 1000, "USD"⟩ ⟨2, 500, "USD"⟩
    (by decide) (by decide) rfl rfl (by decide)

/-- Claim C3: for every request with equal account ids or a non-positive
amount, TransferTx fails with an InvalidRequest error before any I/O:
whatever the collaborators would do (any fault assignment, including a
failing begin), the result is the empty TransferTxResult and the state —
database and ghost traces alike — is untouched. -/
theorem claim_C3_invalid_request (f : Faults) (arg : TransferTxParams) (st : St)
    (h : arg.FromAccountID = arg.ToAccountID ∨ arg.Amount ≤ 0) :
    ∃ e, TransferTx f arg st = (TransferTxResult.empty, some e, st) ∧
      e.isInvalidRequest = true := by
  by_cases heq : arg.FromAccountID = arg.ToAccountID
  · refine ⟨.sameAccount, ?_, rfl⟩
    unfold TransferTx validateTransferParams
    rw [if_pos heq]
  · have hle : arg.Amount ≤ 0 := h.resolve_left heq
    refine ⟨.nonPositiveAmount, ?_, rfl⟩
    unfold TransferTx validateTransferParams
    rw [if_neg heq, if_pos hle]

theorem claim_C3_witness :
    ∃ e, TransferTx noFaults ⟨1, 1, 5⟩ st0 = (TransferTxResult.empty, some e, st0) ∧
      e.isInvalidRequest = true :=
  claim_C3_invalid_request noFaults ⟨1, 1, 5⟩ st0 (Or.inl rfl)

end SimpleBank

namespace SimpleBank

/-- Claim C9: an account balance that is non-negative before a TransferTx
call is still non-negative afterwards, whatever the request and whatever
the collaborators do (success, business-rule failure, injected fault):
a transfer never drives a balance negative. -/
theorem claim_C9_no_negative_balance (f : Faults) (arg : TransferTxParams) (st : St)
    (i : Int) (a a' : Account)
    (ha : findAccount st.db.accounts i = some a) (hnn : 0 ≤ a.balance)
    (ha' : findAccount ((TransferTx f arg st).2.2).db.accounts i = some a') :
    0 ≤ a'.balance := by
  rcases tx_db_cases f arg st with heq | ⟨hne, hpos, src, hsrc, hbound, hacc⟩
  · rw [heq, ha] at ha'
    cases ha'
    exact hnn
  · rw [hacc] at ha'
    by_cases hif : i = arg.FromAccountID
    · subst hif
      rw [findAccount_applyDelta_ne _ _ _ _ hne,
        findAccount_applyDelta_self _ _ _ _ hsrc] at ha'
      cases ha'
      dsimp only
      have ha2 : a = src := by
        rw [ha] at hsrc
        cases hsrc
        rfl
      omega
    · by_cases hit : i = arg.ToAccountID
      · subst hit
        have hinner : findAccount (applyDelta st.db.accounts arg.FromAccountID (-arg.Amount))
            arg.ToAccountID = some a :=
          (findAccount_applyDelta_ne _ _ _ _ fun hc => hne hc.symm).trans ha
        rw [findAccount_applyDelta_self _ _ _ _ hinner] at ha'
        cases ha'
        dsimp only
        omega
      · rw [findAccount_applyDelta_ne _ _ _ _ hit,
          findAccount_applyDelta_ne _ _ _ _ hif, ha] at ha'
        cases ha'
        exact hnn

theorem claim_C9_witness : 0 ≤ (Account.mk 1 800 "USD").balance :=
  claim_C9_no_negative_balance noFaults ⟨1, 2, 200⟩ st0 1 ⟨1, 1000, "USD"⟩
    ⟨1, 800, "USD"⟩ rfl (by decide) (by decide)

/-- Claim C10: a fault-free successful TransferTx creates exactly one
Transfer row carrying the source id, destination id and amount, and
exactly two Entry rows — the debit entry for the source account with the
amount negated, then the credit entry for the destination account with
the positive amount — created in that order after the Transfer row, and
returns all three records in the result. -/
theorem claim_C10_created_records (arg : TransferTxParams) (st : St) (src dst : Account)
    (hne : arg.FromAccountID ≠ arg.ToAccountID) (hpos : 0 < arg.Amount)
    (hsrc : findAccount st.db.accounts arg.FromAccountID = some src)
    (hdst : findAccount st.db.accounts arg.ToAccountID = some dst)
    (hbal : arg.Amount ≤ src.balance) :
    (TransferTx noFaults arg st).2.1 = none ∧
    ((TransferTx noFaults arg st).2.2).db.transfers
      = st.db.transfers ++ [⟨st.db.nextTransferID, arg.FromAccountID, arg.ToAccountID, arg.Amount⟩] ∧
    ((TransferTx noFaults arg st).2.2).db.entries
      = st.db.entries ++ [⟨st.db.nextEntryID, arg.FromAccountID, -arg.Amount⟩,
          ⟨st.db.nextEntryID + 1, arg.ToAccountID, arg.Amount⟩] ∧
    ((TransferTx noFaults arg st).2.2).events
      = st.events ++
          [.transferCreated ⟨st.db.nextTransferID, arg.FromAccountID, arg.ToAccountID, arg.Amount⟩,
           .entryCreated ⟨st.db.nextEntryID, arg.FromAccountID, -arg.Amount⟩,
           .entryCreated ⟨st.db.nextEntryID + 1, arg.ToAccountID, arg.Amount⟩] ∧
    (TransferTx noFaults arg st).1.Transfer
      = ⟨st.db.nextTransferID, arg.FromAccountID, arg.ToAccountID, arg.Amount⟩ ∧
    (TransferTx noFaults arg st).1.FromEntry
      = ⟨st.db.nextEntryID, arg.FromAccountID, -arg.Amount⟩ ∧
    (TransferTx noFaults arg st).1.ToEntry
      = ⟨st.db.nextEntryID + 1, arg.ToAccountID, arg.Amount⟩ := by
  rw [success_run arg st src dst hne hpos hsrc hdst hbal]
  exact ⟨rfl, rfl, rfl, rfl, rfl, rfl, rfl⟩

theorem claim_C10_witness :
    (TransferTx noFaults ⟨1, 2, 200⟩ st0).2.1 = none ∧
    ((TransferTx noFaults ⟨1, 2, 200⟩ st0).2.2).db.transfers
      = st0.db.transfers ++ [⟨1, 1, 2, 200⟩] ∧
    ((TransferTx noFaults ⟨1, 2, 200⟩ st0).2.2).db.entries
      = st0.db.entries ++ [⟨1, 1, -200⟩, ⟨1 + 1, 2, 200⟩] ∧
    ((TransferTx noFaults ⟨1, 2, 200⟩ st0).2.2).events
      = st0.events ++ [.transferCreated ⟨1, 1, 2, 200⟩,
          .entryCreated ⟨1, 1, -200⟩, .entryCreated ⟨1 + 1, 2, 200⟩] ∧
    (TransferTx noFaults ⟨1, 2, 200⟩ st0).1.Transfer = ⟨1, 1, 2, 200⟩ ∧
    (TransferTx noFaults ⟨1, 2, 200⟩ st0).1.FromEntry = ⟨1, 1, -200⟩ ∧
    (TransferTx noFaults ⟨1, 2, 200⟩ st0).1.ToEntry = ⟨1 + 1, 2, 200⟩ :=
  claim_C10_created_records ⟨1, 2, 200⟩ st0 ⟨1, 1000, "USD"⟩ ⟨2, 500, "USD"⟩
    (by decide) (by decide) rfl rfl (by decide)

end SimpleBank

namespace SimpleBank

/-- Claim C6: for every valid request (distinct ids), the two-branch
post-lock balance check of updateAccountBalances is equivalent to the
single check of the locked balance of the actual source account: the two
functions agree on every fault assignment and every state, so TransferTx
reports insufficient funds exactly when the locked source-account
balance is below the amount, whichever of the two ids is smaller. -/
theorem claim_C6_check_equivalence (f : Faults) (arg : TransferTxParams) (st : St)
    (hne : arg.FromAccountID ≠ arg.ToAccountID) :
    updateAccountBalances f arg st = updateAccountBalancesSingleCheck f arg st := by
  have hne' : arg.ToAccountID ≠ arg.FromAccountID := fun h => hne h.symm
  by_cases hgt : arg.FromAccountID > arg.ToAccountID
  · simp only [updateAccountBalances, updateAccountBalancesSingleCheck, if_pos hgt]
    cases h1 : GetAccountForUpdate f.lockFirstErr arg.ToAccountID st with
    | mk r1 st1 =>
      cases r1 with
      | error e => rfl
      | ok firstAccount =>
        dsimp only
        cases h2 : GetAccountForUpdate f.lockSecondErr arg.FromAccountID st1 with
        | mk r2 st2 =>
          cases r2 with
          | error e => rfl
          | ok secondAccount =>
            dsimp only
            have hcf : ¬ (arg.ToAccountID = arg.FromAccountID
                ∧ firstAccount.balance < arg.Amount) := fun hc => hne' hc.1
            rw [if_neg hcf, if_neg hne']
            simp only [if_true, true_and]
  · simp only [updateAccountBalances, updateAccountBalancesSingleCheck, if_neg hgt]
    cases h1 : GetAccountForUpdate f.lockFirstErr arg.FromAccountID st with
    | mk r1 st1 =>
      cases r1 with
      | error e => rfl
      | ok firstAccount =>
        dsimp only
        cases h2 : GetAccountForUpdate f.lockSecondErr arg.ToAccountID st1 with
        | mk r2 st2 =>
          cases r2 with
          | error e => rfl
          | ok secondAccount =>
            dsimp only
            have hcs : ¬ (arg.ToAccountID = arg.FromAccountID
                ∧ secondAccount.balance < arg.Amount) := fun hc => hne' hc.1
            rw [if_neg hcs]
            simp only [if_true, true_and]

theorem claim_C6_witness :
    updateAccountBalances noFaults ⟨2, 1, 100⟩ st0
      = updateAccountBalancesSingleCheck noFaults ⟨2, 1, 100⟩ st0 :=
  claim_C6_check_equivalence noFaults ⟨2, 1, 100⟩ st0 (by decide)

/-- A fault assignment where creating the Transfer row fails and the
subsequent rollback fails too. -/
def faultsCtRb : Faults :=
  { noFaults with createTransferErr := some "ct fail", rollbackErr := some "rb fail" }

/-- Claim C7: when the transaction closure fails with some error and the
rollback fails too, TransferTx surfaces the combined error carrying both
the original error and the rollback failure — the triggering error is
never discarded. -/
theorem claim_C7_rollback_combined (f : Faults) (arg : TransferTxParams) (st : St)
    (r : TransferTxResult) (e : TxError) (st' : St) (m : String)
    (hv : validateTransferParams arg = none)
    (hb : f.beginErr = none)
    (hrb : f.rollbackErr = some m)
    (hbody : transferTxBody f arg TransferTxResult.empty st = (r, .error e, st')) :
    (TransferTx f arg st).2.1 = some (.txAndRb e m) := by
  unfold TransferTx
  rw [hv]
  unfold execTx
  rw [hb, hbody]
  dsimp only
  rw [hrb]

theorem claim_C7_witness :
    (TransferTx faultsCtRb ⟨1, 2, 200⟩ st0).2.1
      = some (.txAndRb (.accessor "ct fail") "rb fail") :=
  claim_C7_rollback_combined faultsCtRb
    ⟨1, 2, 200⟩ st0 TransferTxResult.empty (.accessor "ct fail") st0 "rb fail"
    rfl rfl rfl rfl

end SimpleBank

namespace SimpleBank

/-- A fault assignment where creating the debit Entry row fails (and
nothing else). -/
def faultsEntryBoom : Faults :=
  { noFaults with createEntryFromErr := some "io failure" }

/-- Counterexample to claim C5 as stated: on this failing run (the debit
Entry creation fails after the Transfer row was created) TransferTx
returns an error together with a result that is NOT empty — its Transfer
field carries the already created row. -/
theorem claim_C5_counterexample :
    ((TransferTx faultsEntryBoom ⟨1, 2, 200⟩ st0).2.1).isSome = true ∧
    (TransferTx faultsEntryBoom ⟨1, 2, 200⟩ st0).1 ≠ TransferTxResult.empty := by
  decide

/-- Claim C5 as amended: when the transaction fails partway (here: the
debit Entry creation fails after the Transfer row was created),
TransferTx returns the error together with a partially populated result
whose fields assigned before the failure keep their values — the
database itself is unchanged.  Only a validation failure guarantees an
entirely empty result (claim C3). -/
theorem claim_C5_partial_result (f : Faults) (arg : TransferTxParams) (st : St) (m : String)
    (hne : arg.FromAccountID ≠ arg.ToAccountID) (hpos : 0 < arg.Amount)
    (hb : f.beginErr = none) (hct : f.createTransferErr = none)
    (he1 : f.createEntryFromErr = some m) (hrb : f.rollbackErr = none) :
    (TransferTx f arg st).1.Transfer
      = ⟨st.db.nextTransferID, arg.FromAccountID, arg.ToAccountID, arg.Amount⟩ ∧
    (TransferTx f arg st).2.1 = some (.accessor m) ∧
    ((TransferTx f arg st).2.2).db = st.db := by
  have hv : validateTransferParams arg = none := (validate_eq_none arg).mpr ⟨hne, hpos⟩
  simp only [TransferTx, hv, execTx, hb, transferTxBody, CreateTransfer, hct,
    CreateEntry, he1, hrb]
  refine ⟨?_, ?_, ?_⟩ <;> trivial

theorem claim_C5_witness :
    (TransferTx faultsEntryBoom ⟨1, 2, 200⟩ st0).1.Transfer = ⟨1, 1, 2, 200⟩ ∧
    (TransferTx faultsEntryBoom ⟨1, 2, 200⟩ st0).2.1 = some (.accessor "io failure") ∧
    ((TransferTx faultsEntryBoom ⟨1, 2, 200⟩ st0).2.2).db = st0.db :=
  claim_C5_partial_result faultsEntryBoom ⟨1, 2, 200⟩ st0 "io failure"
    (by decide) (by decide) rfl rfl rfl rfl

/-- A fault assignment where creating the Transfer row fails (and nothing
else). -/
def faultsCtOnly : Faults :=
  { noFaults with createTransferErr := some "driver: bad connection" }

/-- A fault assignment where the first row-locking read fails (and
nothing else). -/
def faultsLock : Faults :=
  { noFaults with lockFirstErr := some "lock timeout" }

/-- Counterexample to claim C8 as stated: a Ledger Accessor failure is
surfaced to the caller verbatim — the returned error is exactly the
own error of the accessor, with no added context or wrapping. -/
theorem claim_C8_counterexample :
    (TransferTx faultsCtOnly ⟨1, 2, 200⟩ st0).2.1
      = some (.accessor "driver: bad connection") := by
  decide

/-- Claim C8 as amended: any failure of the transactional steps (Ledger
Accessor create/read-for-update/update calls) is surfaced to the caller
verbatim — returned unchanged, not wrapped with context; the only
transformation is the combination with a rollback error when rollback
itself also fails (claim C7). -/
theorem claim_C8_verbatim_errors (f : Faults) (arg : TransferTxParams) (st : St)
    (e : TxError)
    (hv : validateTransferParams arg = none)
    (hb : f.beginErr = none)
    (hrb : f.rollbackErr = none)
    (hberr : (transferTxBody f arg TransferTxResult.empty st).2.1 = .error e) :
    (TransferTx f arg st).2.1 = some e := by
  unfold TransferTx
  rw [hv]
  unfold execTx
  rw [hb]
  cases hb2 : transferTxBody f arg TransferTxResult.empty st with
  | mk r rest =>
    cases rest with
    | mk ex st1 =>
      rw [hb2] at hberr
      dsimp only at hberr
      subst hberr
      dsimp only
      rw [hrb]

theorem claim_C8_witness :
    (TransferTx faultsLock ⟨1, 2, 200⟩ st0).2.1 = some (.accessor "lock timeout") :=
  claim_C8_verbatim_errors faultsLock ⟨1, 2, 200⟩ st0 (.accessor "lock timeout")
    rfl rfl rfl rfl

end SimpleBank

namespace SimpleBank

/-- Claim C4: for every valid request on existing accounts, TransferTx
acquires the two row locks in ascending order of account id — the
smaller id first, the larger second — regardless of which account is the
source and which the destination, and regardless of any faults injected
after the locking step (balance check, balance updates, commit,
rollback). -/
theorem claim_C4_lock_order (f : Faults) (arg : TransferTxParams) (st : St)
    (src dst : Account)
    (hne : arg.FromAccountID ≠ arg.ToAccountID) (hpos : 0 < arg.Amount)
    (hsrc : findAccount st.db.accounts arg.FromAccountID = some src)
    (hdst : findAccount st.db.accounts arg.ToAccountID = some dst)
    (hb : f.beginErr = none) (hct : f.createTransferErr = none)
    (he1 : f.createEntryFromErr = none) (he2 : f.createEntryToErr = none)
    (hl1 : f.lockFirstErr = none) (hl2 : f.lockSecondErr = none) :
    ((TransferTx f arg st).2.2).locks
      = st.locks ++ [min arg.FromAccountID arg.ToAccountID,
                     max arg.FromAccountID arg.ToAccountID] := by
  obtain ⟨fb, fct, fe1, fe2, fl1, fl2, faf, fat, fc, fr⟩ := f
  simp only at hb hct he1 he2 hl1 hl2
  subst hb
  subst hct
  subst he1
  subst he2
  subst hl1
  subst hl2
  have hv : validateTransferParams arg = none := (validate_eq_none arg).mpr ⟨hne, hpos⟩
  have hne' : arg.ToAccountID ≠ arg.FromAccountID := fun h => hne h.symm
  have hdst2 : findAccount (applyDelta st.db.accounts arg.FromAccountID (-arg.Amount))
      arg.ToAccountID = some dst :=
    (findAccount_applyDelta_ne _ _ _ _ hne').trans hdst
  by_cases hgt : arg.FromAccountID > arg.ToAccountID
  · have hmin : min arg.FromAccountID arg.ToAccountID = arg.ToAccountID :=
      min_eq_right (le_of_lt hgt)
    have hmax : max arg.FromAccountID arg.ToAccountID = arg.FromAccountID :=
      max_eq_left (le_of_lt hgt)
    rw [hmin, hmax]
    simp only [TransferTx, hv, execTx, transferTxBody, CreateTransfer, CreateEntry,
      updateAccountBalances, GetAccountForUpdate, AddAccountBalance, if_pos hgt,
      hsrc, hdst, hdst2]
    split_ifs <;>
      cases faf <;> cases fat <;> cases fc <;> cases fr <;>
      simp [hsrc, hdst, hdst2, List.append_assoc]
  · have hle : arg.FromAccountID ≤ arg.ToAccountID := le_of_not_lt hgt
    have hmin : min arg.FromAccountID arg.ToAccountID = arg.FromAccountID :=
      min_eq_left hle
    have hmax : max arg.FromAccountID arg.ToAccountID = arg.ToAccountID :=
      max_eq_right hle
    rw [hmin, hmax]
    simp only [TransferTx, hv, execTx, transferTxBody, CreateTransfer, CreateEntry,
      updateAccountBalances, GetAccountForUpdate, AddAccountBalance, if_neg hgt,
      hsrc, hdst, hdst2]
    split_ifs <;>
      cases faf <;> cases fat <;> cases fc <;> cases fr <;>
      simp [hsrc, hdst, hdst2, List.append_assoc]

theorem claim_C4_witness :
    ((TransferTx noFaults ⟨2, 1, 100⟩ st0).2.2).locks
      = st0.locks ++ [min (2 : Int) 1, max (2 : Int) 1] :=
  claim_C4_lock_order noFaults ⟨2, 1, 100⟩ st0 ⟨2, 500, "USD"⟩ ⟨1, 1000, "USD"⟩
    (by decide) (by decide) rfl rfl rfl rfl rfl rfl rfl rfl

end SimpleBank
